import Mathlib

/-!
Verification of the range-selection engine of the `sigma-timeslicer`
timeline slicer (`src/components/TimelineSlicer.tsx`).

A JavaScript `Date` is modelled as its time value: an integer number of
milliseconds since the epoch (`Date.prototype.getTime`), with the local
time zone taken to be UTC and the proleptic Gregorian calendar used for
the field accessors (`getFullYear` / `getMonth` / `getDate`) and for the
field constructor `new Date(year, month, day)`.

All divisors below are positive, so integer `/` and `%` coincide with
the flooring division and modulo used by the ECMAScript specification
(`Day(t)`, `MakeDay`) and by `Math.floor` in the source.
-/

namespace TimelineSlicer

/-- Times are milliseconds since the epoch (`Date.prototype.getTime`);
a `Date` is identified with its time value, an `Int`. -/
def msPerDay : Int := 86400000

/-- ECMAScript `Day(t)`: the epoch day number containing time `t`. -/
def dayNumber (t : Int) : Int := t / msPerDay

/-- The civil (calendar) fields of a date, as returned by
`getFullYear` / `getMonth` / `getDate`: `month` ranges over `0..11`
(JavaScript convention) and `day` over `1..31`. -/
structure Civil where
  year : Int
  month : Int
  day : Int
deriving DecidableEq

/-! Conversion from an epoch day number to its civil date, following the
standard era decomposition of the proleptic Gregorian calendar (days are
regrouped into 400-year eras of 146097 days starting on March 1). -/

def cEra (z : Int) : Int := (z + 719468) / 146097

/-- Day of era: position of the day inside its 400-year era, in `0..146096`. -/
def cDoe (z : Int) : Int := z + 719468 - 146097 * cEra z

/-- Century of era, in `0..3`: the first three centuries have 36524 days,
the fourth 36525 (its last year is a leap year), whence the cap. -/
def cCoc (z : Int) : Int := min 3 (cDoe z / 36524)

/-- Day of century, in `0..36524`. -/
def cDoc (z : Int) : Int := cDoe z - 36524 * cCoc z

/-- Quadrennium (4-year group) of century, in `0..24`. -/
def cQoc (z : Int) : Int := cDoc z / 1461

/-- Day of quadrennium, in `0..1460`. -/
def cDoq (z : Int) : Int := cDoc z - 1461 * cQoc z

/-- Year of quadrennium, in `0..3`: the first three years have 365 days,
the fourth 366 when present, whence the cap. -/
def cYiq (z : Int) : Int := min 3 (cDoq z / 365)

/-- Day of the (March-based) year, in `0..365`. -/
def cDoy (z : Int) : Int := cDoq z - 365 * cYiq z

/-- Year of era, in `0..399`. -/
def cYoe (z : Int) : Int := 100 * cCoc z + 4 * cQoc z + cYiq z

/-- March-based month index, in `0..11` (0 = March, 11 = February). -/
def cMp (z : Int) : Int := (5 * cDoy z + 2) / 153

/-- Day of the month, in `1..31`. -/
def cDay (z : Int) : Int := cDoy z - (153 * cMp z + 2) / 5 + 1

/-- Calendar month in `1..12` (January = 1). -/
def cMonth1 (z : Int) : Int := cMp z + (if cMp z < 10 then 3 else -9)

/-- Civil date of an epoch day number (model of the `getFullYear` /
`getMonth` / `getDate` accessors applied to a date on day `z`). -/
def civilFromDays (z : Int) : Civil :=
  ⟨cYoe z + 400 * cEra z + (if cMonth1 z ≤ 2 then 1 else 0),
   cMonth1 z - 1, cDay z⟩

/-- Epoch day number of the civil date `(y, m0, d)` where the month
`m0` is in `0..11`; `d` may lie outside `1..(days in month)`, in which
case the result rolls over, day by day, exactly as ECMAScript
`MakeDay` does. -/
def daysFromCivilValid (y m0 d : Int) : Int :=
  let yAdj := y - (if m0 ≤ 1 then 1 else 0)
  let era := yAdj / 400
  let yoe := yAdj - 400 * era
  let mp := if 2 ≤ m0 then m0 - 2 else m0 + 10
  era * 146097 + yoe * 365 + yoe / 4 - yoe / 100
    + (153 * mp + 2) / 5 + d - 1 - 719468

/-- ECMAScript `MakeDay(y, m, d)`: months outside `0..11` roll the year
over (flooring division and modulo, as the ECMAScript `modulo`). -/
def mkDay (y m d : Int) : Int :=
  daysFromCivilValid (y + m / 12) (m % 12) d

/-- Model of `new Date(y, m, d)` (midnight, local = UTC). -/
def mkDate (y m d : Int) : Int := mkDay y m d * msPerDay

/-- The civil fields of the date `t` (model of
`t.getFullYear()` / `t.getMonth()` / `t.getDate()`). -/
def civilOf (t : Int) : Civil := civilFromDays (dayNumber t)

/-! The engine of `TimelineSlicer.tsx`, translated operation by operation. -/

/-- The granularity options of the slicer: `"day" | "month" | "quarter" | "year"`. -/
inductive Granularity where
  | day
  | month
  | quarter
  | year
deriving DecidableEq

/-- `dateUtils.clampDate`: `if (d < min) return min; if (d > max) return max;
return d`. -/
def clampDate (d minD maxD : Int) : Int :=
  if d < minD then minD else if maxD < d then maxD else d

/-- `dateUtils.floorToGranularity`. -/
def floorToGranularity (d : Int) (g : Granularity) : Int :=
  match g with
  | .day => mkDate (civilOf d).year (civilOf d).month (civilOf d).day
  | .month => mkDate (civilOf d).year (civilOf d).month 1
  | .quarter => mkDate (civilOf d).year (3 * ((civilOf d).month / 3)) 1
  | .year => mkDate (civilOf d).year 0 1

/-- `dateUtils.ceilToGranularity`: return `d` unchanged when it is already
on a boundary, otherwise step to the start of the next period.  The `day`
branch uses the fields of `d` itself, the other branches those of the
floored date, exactly as the source does. -/
def ceilToGranularity (d : Int) (g : Granularity) : Int :=
  let floored := floorToGranularity d g
  if floored = d then d
  else
    match g with
    | .day => mkDate (civilOf d).year (civilOf d).month ((civilOf d).day + 1)
    | .month => mkDate (civilOf floored).year ((civilOf floored).month + 1) 1
    | .quarter => mkDate (civilOf floored).year ((civilOf floored).month + 3) 1
    | .year => mkDate ((civilOf floored).year + 1) 0 1

/-- The spacing of the stripe grid: the start of the period after the one
starting at `cur` (the `nextCurrent` computation of the `stripes` memo). -/
def nextPeriodStart (cur : Int) (g : Granularity) : Int :=
  match g with
  | .month => mkDate (civilOf cur).year ((civilOf cur).month + 1) 1
  | .quarter => mkDate (civilOf cur).year ((civilOf cur).month + 3) 1
  | .year => mkDate ((civilOf cur).year + 1) 0 1
  | .day => mkDate (civilOf cur).year (civilOf cur).month ((civilOf cur).day + 1)

/-- `DateRange` (`{start: Date; end: Date}`). -/
structure DateRange where
  start : Int
  «end» : Int
deriving DecidableEq

/-- The `normalizedRange` memo: clamp both endpoints, swap if inverted,
then (when `snap` is set) floor the start, ceil the end and re-clamp. -/
def normalizedRange (minT maxT : Int) (g : Granularity) (snap : Bool)
    (range : DateRange) : DateRange :=
  let s := clampDate range.start minT maxT
  let e := clampDate range.«end» minT maxT
  let p := if e < s then (e, s) else (s, e)
  if snap then
    ⟨clampDate (floorToGranularity p.1 g) minT maxT,
     clampDate (ceilToGranularity p.2 g) minT maxT⟩
  else
    ⟨p.1, p.2⟩

/-- `commitDrag`: swap if inverted, snap (when set), clamp both, swap again
if clamping inverted the order; the result is handed to `setRange`. -/
def commitDrag (minT maxT : Int) (g : Granularity) (snap : Bool)
    (newStart newEnd : Int) : DateRange :=
  let p := if newEnd < newStart then (newEnd, newStart) else (newStart, newEnd)
  let q := if snap then (floorToGranularity p.1 g, ceilToGranularity p.2 g) else p
  let s := clampDate q.1 minT maxT
  let e := clampDate q.2 minT maxT
  if e < s then ⟨e, s⟩ else ⟨s, e⟩

/-- The normalization pipeline exactly as §4.2 of the specification words it:
clamp each endpoint into `[min, max]`, swap if inverted, then if `snap`
floor the start and ceil the end to the granularity, re-clamp both, and
re-swap if clamping inverted the order.  Stated for comparison with the
two code paths. -/
def specNormalize (minT maxT : Int) (g : Granularity) (snap : Bool)
    (range : DateRange) : DateRange :=
  let s0 := clampDate range.start minT maxT
  let e0 := clampDate range.«end» minT maxT
  let p := if e0 < s0 then (e0, s0) else (s0, e0)
  if snap then
    let s1 := clampDate (floorToGranularity p.1 g) minT maxT
    let e1 := clampDate (ceilToGranularity p.2 g) minT maxT
    if e1 < s1 then ⟨e1, s1⟩ else ⟨s1, e1⟩
  else
    ⟨p.1, p.2⟩

/-- `handleGranularityChange`: re-floor the current normalized start and
re-ceil the current normalized end to the new granularity, clamp both, and
hand the result to `setRange`. -/
def handleGranularityChange (minT maxT : Int) (cur : DateRange)
    (newGranularity : Granularity) : DateRange :=
  ⟨clampDate (floorToGranularity cur.start newGranularity) minT maxT,
   clampDate (ceilToGranularity cur.«end» newGranularity) minT maxT⟩

/-- `value || { start: min, end: max }`: a `DateRange` object is always
truthy, so only a missing `value` falls back to the full bounds. -/
def rangeOrDefault (value : Option DateRange) (minT maxT : Int) : DateRange :=
  value.getD ⟨minT, maxT⟩

/-- The range the component displays and maps to percentages: the
`normalizedRange` memo applied to `value || {start: min, end: max}`. -/
def displayedRange (minT maxT : Int) (g : Granularity) (snap : Bool)
    (value : Option DateRange) : DateRange :=
  normalizedRange minT maxT g snap (rangeOrDefault value minT maxT)

/-- `total = Math.max(1, max.getTime() - min.getTime())`. -/
def total (minT maxT : Int) : Int := max 1 (maxT - minT)

/-- Truncation toward zero of a rational, as ECMAScript applies to a
non-integral time value (`new Date(t)` keeps `ToIntegerOrInfinity(t)`). -/
def jsTrunc (q : ℚ) : Int := if q < 0 then ⌈q⌉ else ⌊q⌋

/-- `toPct`: `(100 * (d - min)) / total`, computed exactly. -/
def toPct (minT maxT : Int) (d : Int) : ℚ :=
  (100 * (d - minT) : Int) / (total minT maxT : Int)

/-- `fromPct`: `new Date(min + (pct / 100) * total)`, computed exactly and
then truncated by the `Date` constructor. -/
def fromPct (minT maxT : Int) (pct : ℚ) : Int :=
  jsTrunc ((minT : ℚ) + pct / 100 * (total minT maxT : Int))

/-- The `"range"` branch of `onPointerMove`: keep the current span, centre
it on the pointer date, and shift the window back inside the bounds when it
crosses them; the two `new Date(...)` constructions truncate the two
half-integral endpoints.  Returns the pair passed to `commitDrag`. -/
def bandProposal (minT maxT span center : Int) : Int × Int :=
  let s : ℚ := (center : ℚ) - (span : ℚ) / 2
  let e : ℚ := (center : ℚ) + (span : ℚ) / 2
  let p := if s < (minT : ℚ) then ((minT : ℚ), e + ((minT : ℚ) - s)) else (s, e)
  let q := if (maxT : ℚ) < p.2 then (p.1 - (p.2 - (maxT : ℚ)), (maxT : ℚ)) else p
  (jsTrunc q.1, jsTrunc q.2)

/-- Which part of the slider a pointer interaction controls
(`dragging.current`). -/
inductive DragTarget where
  | start
  | «end»
  | range
deriving DecidableEq

/-- The range committed by the animation-frame callback of `onPointerMove`,
given the active target, the pointer's date and the current normalized
selection. -/
def frameCommit (minT maxT : Int) (g : Granularity) (snap : Bool)
    (cur : DateRange) (w : DragTarget) (dateAt : Int) : DateRange :=
  match w with
  | .start => commitDrag minT maxT g snap dateAt cur.«end»
  | .«end» => commitDrag minT maxT g snap cur.start dateAt
  | .range =>
      let p := bandProposal minT maxT (cur.«end» - cur.start) dateAt
      commitDrag minT maxT g snap p.1 p.2

/-- The state of the pointer interaction: the active drag target
(`dragging.current`), the single pending animation-frame callback
(`raf.current`, holding the move event it captured), the host-controlled
`value` (the host echoes every `onChange` back, as the plugin component
does with `setDateRange`), and the list of committed ranges, most recent
first. -/
structure SliderState where
  dragging : Option DragTarget
  raf : Option Int
  value : DateRange
  commits : List DateRange
deriving DecidableEq

/-- The pointer events the slider reacts to.  A `move` event carries the
date under the pointer (`fromPct (pointerToPct e.clientX)`); `frame` is the
browser running the pending animation-frame callback. -/
inductive PointerEv where
  | down (w : DragTarget)
  | move (dateAt : Int)
  | up
  | frame
deriving DecidableEq

/-- One step of the drag state machine.  `onPointerMove` cancels any
pending frame and schedules a new one with the latest event; `onPointerUp`
releases the capture and resets `dragging` but neither flushes nor cancels
the pending frame; the frame callback re-reads `dragging.current` when it
finally runs. -/
def step (minT maxT : Int) (g : Granularity) (snap : Bool)
    (st : SliderState) : PointerEv → SliderState
  | .down w => { st with dragging := some w }
  | .move dateAt =>
      match st.dragging with
      | none => st
      | some _ => { st with raf := some dateAt }
  | .up => { st with dragging := none }
  | .frame =>
      match st.raf with
      | none => st
      | some dateAt =>
          match st.dragging with
          | none => { st with raf := none }
          | some w =>
              let r := frameCommit minT maxT g snap
                (normalizedRange minT maxT g snap st.value) w dateAt
              { st with raf := none, value := r, commits := r :: st.commits }

/-- Run the machine over a sequence of pointer events. -/
def runTrace (minT maxT : Int) (g : Granularity) (snap : Bool)
    (st : SliderState) (evs : List PointerEv) : SliderState :=
  evs.foldl (step minT maxT g snap) st

/-- The idle state for a host whose value starts at the full bounds. -/
def initState (minT maxT : Int) : SliderState :=
  ⟨none, none, ⟨minT, maxT⟩, []⟩

/-! Arithmetic of the calendar conversion. -/

lemma cDoe_bounds (z : Int) : 0 ≤ cDoe z ∧ cDoe z < 146097 := by
  unfold cDoe cEra; omega

lemma cCoc_bounds (z : Int) : 0 ≤ cCoc z ∧ cCoc z ≤ 3 := by
  have h := cDoe_bounds z; unfold cCoc; omega

lemma cDoc_bounds (z : Int) : 0 ≤ cDoc z ∧ cDoc z ≤ 36524 := by
  have h := cDoe_bounds z; unfold cDoc cCoc; omega

lemma cQoc_bounds (z : Int) : 0 ≤ cQoc z ∧ cQoc z ≤ 24 := by
  have h := cDoc_bounds z; unfold cQoc; omega

lemma cDoq_bounds (z : Int) : 0 ≤ cDoq z ∧ cDoq z ≤ 1460 := by
  have h := cDoc_bounds z; unfold cDoq cQoc; omega

lemma cYiq_bounds (z : Int) : 0 ≤ cYiq z ∧ cYiq z ≤ 3 := by
  have h := cDoq_bounds z; unfold cYiq; omega

lemma cDoy_bounds (z : Int) : 0 ≤ cDoy z ∧ cDoy z ≤ 365 := by
  have h := cDoq_bounds z; unfold cDoy cYiq; omega

lemma cYoe_bounds (z : Int) : 0 ≤ cYoe z ∧ cYoe z ≤ 399 := by
  have h1 := cCoc_bounds z; have h2 := cQoc_bounds z; have h3 := cYiq_bounds z
  unfold cYoe; omega

lemma cMp_bounds (z : Int) : 0 ≤ cMp z ∧ cMp z ≤ 11 := by
  have h := cDoy_bounds z; unfold cMp; omega

lemma cDay_bounds (z : Int) : 1 ≤ cDay z ∧ cDay z ≤ 31 := by
  have h := cDoy_bounds z; unfold cDay cMp; omega

-- decomposition identity: doe = 36524*coc + 1461*qoc + 365*yiq + doy
lemma cDoe_decomp (z : Int) :
    cDoe z = 36524 * cCoc z + 1461 * cQoc z + 365 * cYiq z + cDoy z := by
  unfold cDoy cDoq cDoc; ring

-- arithmetic of the year-of-era under the era decomposition
lemma yAdj_div (z : Int) : (cYoe z + 400 * cEra z) / 400 = cEra z := by
  have h := cYoe_bounds z; omega

lemma yoe_div4 (z : Int) : cYoe z / 4 = 25 * cCoc z + cQoc z := by
  have h1 := cCoc_bounds z; have h2 := cQoc_bounds z; have h3 := cYiq_bounds z
  unfold cYoe; omega

lemma yoe_div100 (z : Int) : cYoe z / 100 = cCoc z := by
  have h1 := cCoc_bounds z; have h2 := cQoc_bounds z; have h3 := cYiq_bounds z
  unfold cYoe; omega

lemma mp_doy (z : Int) : (153 * cMp z + 2) / 5 + cDay z - 1 = cDoy z := by
  unfold cDay; omega

lemma P_doe (z : Int) :
    365 * cYoe z + cYoe z / 4 - cYoe z / 100 + cDoy z = cDoe z := by
  have h1 := yoe_div4 z; have h2 := yoe_div100 z
  have h3 := cDoe_decomp z
  have hY : cYoe z = 100 * cCoc z + 4 * cQoc z + cYiq z := rfl
  omega

-- the generalized round trip: rebuilding a day from the civil fields of z,
-- with an arbitrary day-of-month e, lands at z + (e - cDay z).
lemma dfc_civil (z e : Int) :
    daysFromCivilValid (civilFromDays z).year (civilFromDays z).month e
      = z + (e - cDay z) := by
  have h1 := yAdj_div z
  have h2 := yoe_div4 z
  have h3 := yoe_div100 z
  have h4 := mp_doy z
  have h5 := P_doe z
  have h6 : z + 719468 = 146097 * cEra z + cDoe z := by unfold cDoe; ring
  have h7 := cMp_bounds z
  have h8 := cDay_bounds z
  unfold daysFromCivilValid civilFromDays cMonth1
  dsimp only
  split_ifs <;> omega

-- every day lies strictly before the start of the month after its own
set_option maxHeartbeats 1000000 in
lemma lt_next_month (z : Int) :
    z < mkDay (civilFromDays z).year ((civilFromDays z).month + 1) 1 := by
  have b4 := cDoy_bounds z
  have hyb := cYoe_bounds z
  have b8 : cDoe z = z + 719468 - 146097 * cEra z := rfl
  have hP := P_doe z
  have hmp : (5 * cDoy z + 2) / 153 = cMp z := rfl
  have hcase : cMp z = 0 ∨ cMp z = 1 ∨ cMp z = 2 ∨ cMp z = 3 ∨ cMp z = 4 ∨
      cMp z = 5 ∨ cMp z = 6 ∨ cMp z = 7 ∨ cMp z = 8 ∨ cMp z = 9 ∨
      cMp z = 10 ∨ cMp z = 11 := by have := cMp_bounds z; omega
  rcases hcase with h|h|h|h|h|h|h|h|h|h|h|h
  · have hyear : (civilFromDays z).year = cYoe z + 400 * cEra z := by
      unfold civilFromDays cMonth1; dsimp only; rw [h]; norm_num
    have hmonth : (civilFromDays z).month = 2 := by
      unfold civilFromDays cMonth1; dsimp only; rw [h]; norm_num
    have hnext : mkDay (civilFromDays z).year ((civilFromDays z).month + 1) 1
        = 146097 * cEra z + 365 * cYoe z + cYoe z / 4 - cYoe z / 100
          + 31 - 719468 := by
      rw [hyear, hmonth]
      unfold mkDay daysFromCivilValid
      norm_num
      omega
    rw [h] at hmp
    omega
  · have hyear : (civilFromDays z).year = cYoe z + 400 * cEra z := by
      unfold civilFromDays cMonth1; dsimp only; rw [h]; norm_num
    have hmonth : (civilFromDays z).month = 3 := by
      unfold civilFromDays cMonth1; dsimp only; rw [h]; norm_num
    have hnext : mkDay (civilFromDays z).year ((civilFromDays z).month + 1) 1
        = 146097 * cEra z + 365 * cYoe z + cYoe z / 4 - cYoe z / 100
          + 61 - 719468 := by
      rw [hyear, hmonth]
      unfold mkDay daysFromCivilValid
      norm_num
      omega
    rw [h] at hmp
    omega
  · have hyear : (civilFromDays z).year = cYoe z + 400 * cEra z := by
      unfold civilFromDays cMonth1; dsimp only; rw [h]; norm_num
    have hmonth : (civilFromDays z).month = 4 := by
      unfold civilFromDays cMonth1; dsimp only; rw [h]; norm_num
    have hnext : mkDay (civilFromDays z).year ((civilFromDays z).month + 1) 1
        = 146097 * cEra z + 365 * cYoe z + cYoe z / 4 - cYoe z / 100
          + 92 - 719468 := by
      rw [hyear, hmonth]
      unfold mkDay daysFromCivilValid
      norm_num
      omega
    rw [h] at hmp
    omega
  · have hyear : (civilFromDays z).year = cYoe z + 400 * cEra z := by
      unfold civilFromDays cMonth1; dsimp only; rw [h]; norm_num
    have hmonth : (civilFromDays z).month = 5 := by
      unfold civilFromDays cMonth1; dsimp only; rw [h]; norm_num
    have hnext : mkDay (civilFromDays z).year ((civilFromDays z).month + 1) 1
        = 146097 * cEra z + 365 * cYoe z + cYoe z / 4 - cYoe z / 100
          + 122 - 719468 := by
      rw [hyear, hmonth]
      unfold mkDay daysFromCivilValid
      norm_num
      omega
    rw [h] at hmp
    omega
  · have hyear : (civilFromDays z).year = cYoe z + 400 * cEra z := by
      unfold civilFromDays cMonth1; dsimp only; rw [h]; norm_num
    have hmonth : (civilFromDays z).month = 6 := by
      unfold civilFromDays cMonth1; dsimp only; rw [h]; norm_num
    have hnext : mkDay (civilFromDays z).year ((civilFromDays z).month + 1) 1
        = 146097 * cEra z + 365 * cYoe z + cYoe z / 4 - cYoe z / 100
          + 153 - 719468 := by
      rw [hyear, hmonth]
      unfold mkDay daysFromCivilValid
      norm_num
      omega
    rw [h] at hmp
    omega
  · have hyear : (civilFromDays z).year = cYoe z + 400 * cEra z := by
      unfold civilFromDays cMonth1; dsimp only; rw [h]; norm_num
    have hmonth : (civilFromDays z).month = 7 := by
      unfold civilFromDays cMonth1; dsimp only; rw [h]; norm_num
    have hnext : mkDay (civilFromDays z).year ((civilFromDays z).month + 1) 1
        = 146097 * cEra z + 365 * cYoe z + cYoe z / 4 - cYoe z / 100
          + 184 - 719468 := by
      rw [hyear, hmonth]
      unfold mkDay daysFromCivilValid
      norm_num
      omega
    rw [h] at hmp
    omega
  · have hyear : (civilFromDays z).year = cYoe z + 400 * cEra z := by
      unfold civilFromDays cMonth1; dsimp only; rw [h]; norm_num
    have hmonth : (civilFromDays z).month = 8 := by
      unfold civilFromDays cMonth1; dsimp only; rw [h]; norm_num
    have hnext : mkDay (civilFromDays z).year ((civilFromDays z).month + 1) 1
        = 146097 * cEra z + 365 * cYoe z + cYoe z / 4 - cYoe z / 100
          + 214 - 719468 := by
      rw [hyear, hmonth]
      unfold mkDay daysFromCivilValid
      norm_num
      omega
    rw [h] at hmp
    omega
  · have hyear : (civilFromDays z).year = cYoe z + 400 * cEra z := by
      unfold civilFromDays cMonth1; dsimp only; rw [h]; norm_num
    have hmonth : (civilFromDays z).month = 9 := by
      unfold civilFromDays cMonth1; dsimp only; rw [h]; norm_num
    have hnext : mkDay (civilFromDays z).year ((civilFromDays z).month + 1) 1
        = 146097 * cEra z + 365 * cYoe z + cYoe z / 4 - cYoe z / 100
          + 245 - 719468 := by
      rw [hyear, hmonth]
      unfold mkDay daysFromCivilValid
      norm_num
      omega
    rw [h] at hmp
    omega
  · have hyear : (civilFromDays z).year = cYoe z + 400 * cEra z := by
      unfold civilFromDays cMonth1; dsimp only; rw [h]; norm_num
    have hmonth : (civilFromDays z).month = 10 := by
      unfold civilFromDays cMonth1; dsimp only; rw [h]; norm_num
    have hnext : mkDay (civilFromDays z).year ((civilFromDays z).month + 1) 1
        = 146097 * cEra z + 365 * cYoe z + cYoe z / 4 - cYoe z / 100
          + 275 - 719468 := by
      rw [hyear, hmonth]
      unfold mkDay daysFromCivilValid
      norm_num
      omega
    rw [h] at hmp
    omega
  · have hyear : (civilFromDays z).year = cYoe z + 400 * cEra z := by
      unfold civilFromDays cMonth1; dsimp only; rw [h]; norm_num
    have hmonth : (civilFromDays z).month = 11 := by
      unfold civilFromDays cMonth1; dsimp only; rw [h]; norm_num
    have hnext : mkDay (civilFromDays z).year ((civilFromDays z).month + 1) 1
        = 146097 * cEra z + 365 * cYoe z + cYoe z / 4 - cYoe z / 100
          + 306 - 719468 := by
      rw [hyear, hmonth]
      unfold mkDay daysFromCivilValid
      norm_num
      omega
    rw [h] at hmp
    omega
  · have hyear : (civilFromDays z).year = cYoe z + 400 * cEra z + 1 := by
      unfold civilFromDays cMonth1; dsimp only; rw [h]; norm_num
    have hmonth : (civilFromDays z).month = 0 := by
      unfold civilFromDays cMonth1; dsimp only; rw [h]; norm_num
    have hnext : mkDay (civilFromDays z).year ((civilFromDays z).month + 1) 1
        = 146097 * cEra z + 365 * cYoe z + cYoe z / 4 - cYoe z / 100
          + 337 - 719468 := by
      rw [hyear, hmonth]
      unfold mkDay daysFromCivilValid
      norm_num
      omega
    rw [h] at hmp
    omega
  · have hyear : (civilFromDays z).year = cYoe z + 400 * cEra z + 1 := by
      unfold civilFromDays cMonth1; dsimp only; rw [h]; norm_num
    have hmonth : (civilFromDays z).month = 1 := by
      unfold civilFromDays cMonth1; dsimp only; rw [h]; norm_num
    rw [h] at hmp
    rcases le_or_lt (cYoe z) 398 with hy398 | hy398
    · have hnext : mkDay (civilFromDays z).year ((civilFromDays z).month + 1) 1
          = 146097 * cEra z + 365 * (cYoe z + 1) + (cYoe z + 1) / 4
            - (cYoe z + 1) / 100 - 719468 := by
        rw [hyear, hmonth]
        unfold mkDay daysFromCivilValid
        norm_num
        omega
      have hY : cYoe z = 100 * cCoc z + 4 * cQoc z + cYiq z := rfl
      have hdoq : cDoq z = cDoc z - 1461 * cQoc z := rfl
      have hdoy : cDoy z = cDoq z - 365 * cYiq z := rfl
      have hq2 : cDoy z ≤ 364 ∨ cYiq z = 3 := by
        have := cDoq_bounds z
        unfold cDoy cYiq; omega
      have hq3 : cDoc z ≤ 36523 ∨ cCoc z = 3 := by
        have := cDoe_bounds z
        unfold cDoc cCoc; omega
      have b1 := cCoc_bounds z; have b2 := cQoc_bounds z; have b3 := cYiq_bounds z
      omega
    · have hy : cYoe z = 399 := by have := cYoe_bounds z; omega
      have hnext : mkDay (civilFromDays z).year ((civilFromDays z).month + 1) 1
          = 146097 * (cEra z + 1) - 719468 := by
        rw [hyear, hmonth]
        unfold mkDay daysFromCivilValid
        norm_num
        rw [hy]
        omega
      omega

lemma civil_month_bounds (z : Int) :
    0 ≤ (civilFromDays z).month ∧ (civilFromDays z).month ≤ 11 := by
  have h := cMp_bounds z
  unfold civilFromDays cMonth1
  dsimp only
  split_ifs <;> omega

lemma civil_day_eq (z : Int) : (civilFromDays z).day = cDay z := rfl

lemma mkDay_valid (y m d : Int) (h0 : 0 ≤ m) (h1 : m ≤ 11) :
    mkDay y m d = daysFromCivilValid y m d := by
  unfold mkDay
  have e1 : y + m / 12 = y := by omega
  have e2 : m % 12 = m := by omega
  rw [e1, e2]

lemma mkDay_zero (i d : Int) :
    mkDay 0 i d = daysFromCivilValid (i / 12) (i % 12) d := by
  unfold mkDay
  norm_num

lemma mkDay_index (y m d : Int) : mkDay y m d = mkDay 0 (12 * y + m) d := by
  unfold mkDay
  rw [show (0 : Int) + (12 * y + m) / 12 = y + m / 12 by omega,
      show (12 * y + m) % 12 = m % 12 by omega]

-- consecutive month starts, inside one calendar year
lemma dfc_succ_month (y m : Int) (h0 : 0 ≤ m) (h1 : m ≤ 10) :
    daysFromCivilValid y m 1 < daysFromCivilValid y (m + 1) 1 := by
  unfold daysFromCivilValid
  dsimp only
  split_ifs <;> omega

-- December to January of the next year
lemma dfc_succ_year (y : Int) :
    daysFromCivilValid y 11 1 < daysFromCivilValid (y + 1) 0 1 := by
  unfold daysFromCivilValid
  dsimp only
  split_ifs <;> omega

lemma monthStart_succ (i : Int) : mkDay 0 i 1 < mkDay 0 (i + 1) 1 := by
  rw [mkDay_zero, mkDay_zero]
  rcases le_or_lt (i % 12) 10 with h | h
  · rw [show (i + 1) / 12 = i / 12 by omega, show (i + 1) % 12 = i % 12 + 1 by omega]
    exact dfc_succ_month _ _ (by omega) h
  · have h11 : i % 12 = 11 := by omega
    rw [show (i + 1) / 12 = i / 12 + 1 by omega, show (i + 1) % 12 = 0 by omega, h11]
    exact dfc_succ_year _

lemma monthStart_mono (i j : Int) (hij : i ≤ j) : mkDay 0 i 1 ≤ mkDay 0 j 1 :=
  @Int.le_induction (fun j => mkDay 0 i 1 ≤ mkDay 0 j 1) i (le_refl _)
    (fun n _ ih => le_trans ih (le_of_lt (monthStart_succ n))) j hij

lemma monthStart_lt (i j : Int) (hij : i < j) : mkDay 0 i 1 < mkDay 0 j 1 :=
  lt_of_lt_of_le (monthStart_succ i) (monthStart_mono (i + 1) j (by omega))

-- the inverse round trip on month starts, by interval uniqueness
lemma civil_dfc_one (y m0 : Int) (h0 : 0 ≤ m0) (h1 : m0 ≤ 11) :
    civilFromDays (daysFromCivilValid y m0 1) = ⟨y, m0, 1⟩ := by
  set w := daysFromCivilValid y m0 1 with hw
  have hMb := civil_month_bounds w
  have hDb := cDay_bounds w
  have hlin := dfc_civil w 1
  have hup := lt_next_month w
  -- the four interval facts, in month-index form
  have i1 : mkDay 0 (12 * y + m0) 1 = w := by
    rw [← mkDay_index, mkDay_valid y m0 1 h0 h1]
  have i2 : mkDay 0 (12 * (civilFromDays w).year + (civilFromDays w).month) 1
      ≤ w := by
    rw [← mkDay_index,
        mkDay_valid (civilFromDays w).year (civilFromDays w).month 1
          hMb.1 hMb.2]
    omega
  have i3 : w < mkDay 0 (12 * (civilFromDays w).year + (civilFromDays w).month
      + 1) 1 := by
    rw [show 12 * (civilFromDays w).year + (civilFromDays w).month + 1
        = 12 * (civilFromDays w).year + ((civilFromDays w).month + 1) by ring,
      ← mkDay_index]
    exact hup
  have i4 : w < mkDay 0 (12 * y + m0 + 1) 1 := by
    rw [← i1] at hup ⊢
    exact monthStart_succ _
  have hidx : 12 * (civilFromDays w).year + (civilFromDays w).month
      = 12 * y + m0 := by
    by_contra hne
    rcases lt_or_gt_of_ne hne with hlt | hgt
    · have := monthStart_mono
        (12 * (civilFromDays w).year + (civilFromDays w).month + 1)
        (12 * y + m0) (by omega)
      omega
    · have := monthStart_mono (12 * y + m0 + 1)
        (12 * (civilFromDays w).year + (civilFromDays w).month) (by omega)
      omega
  have hyear : (civilFromDays w).year = y := by omega
  have hmonth : (civilFromDays w).month = m0 := by omega
  have hday : (civilFromDays w).day = 1 := by
    rw [hyear, hmonth] at hlin
    rw [civil_day_eq]
    omega
  calc civilFromDays w
      = ⟨(civilFromDays w).year, (civilFromDays w).month,
         (civilFromDays w).day⟩ := rfl
    _ = ⟨y, m0, 1⟩ := by rw [hyear, hmonth, hday]

/-! Properties of `floorToGranularity` and `ceilToGranularity`. -/

lemma dayNumber_mul (z : Int) : dayNumber (z * msPerDay) = z := by
  unfold dayNumber msPerDay; omega

lemma dayNumber_le (t : Int) : dayNumber t * msPerDay ≤ t := by
  unfold dayNumber msPerDay; omega

lemma lt_dayNumber_succ (t : Int) : t < (dayNumber t + 1) * msPerDay := by
  unfold dayNumber msPerDay; omega

lemma msPerDay_pos : (0 : Int) < msPerDay := by unfold msPerDay; omega

lemma civilOf_mul (z : Int) : civilOf (z * msPerDay) = civilFromDays z := by
  unfold civilOf
  rw [dayNumber_mul]

lemma mkDay_start_mono (y a b : Int) (hab : a ≤ b) :
    mkDay y a 1 ≤ mkDay y b 1 := by
  rw [mkDay_index y a 1, mkDay_index y b 1]
  exact monthStart_mono _ _ (by omega)

lemma mkDay_next_year (y : Int) : mkDay y 12 1 = mkDay (y + 1) 0 1 := by
  rw [mkDay_index y 12 1, mkDay_index (y + 1) 0 1]
  congr 1
  ring

lemma civilOf_mkDate (y m : Int) (h0 : 0 ≤ m) (h1 : m ≤ 11) :
    civilOf (mkDate y m 1) = ⟨y, m, 1⟩ := by
  unfold mkDate
  rw [civilOf_mul, mkDay_valid y m 1 h0 h1]
  exact civil_dfc_one y m h0 h1

lemma floor_day_eq (t : Int) :
    floorToGranularity t .day = dayNumber t * msPerDay := by
  unfold floorToGranularity mkDate civilOf
  rw [mkDay_valid _ _ _ (civil_month_bounds _).1 (civil_month_bounds _).2,
      civil_day_eq]
  have h := dfc_civil (dayNumber t) (cDay (dayNumber t))
  have hAB : daysFromCivilValid (civilFromDays (dayNumber t)).year
      (civilFromDays (dayNumber t)).month (cDay (dayNumber t))
      = dayNumber t := by omega
  rw [hAB]

lemma floor_month_eq (t : Int) :
    floorToGranularity t .month
      = mkDay (civilFromDays (dayNumber t)).year
          (civilFromDays (dayNumber t)).month 1 * msPerDay := rfl

lemma floor_quarter_eq (t : Int) :
    floorToGranularity t .quarter
      = mkDay (civilFromDays (dayNumber t)).year
          (3 * ((civilFromDays (dayNumber t)).month / 3)) 1 * msPerDay := rfl

lemma floor_year_eq (t : Int) :
    floorToGranularity t .year
      = mkDay (civilFromDays (dayNumber t)).year 0 1 * msPerDay := rfl

lemma mkDay_first_le (z : Int) :
    mkDay (civilFromDays z).year (civilFromDays z).month 1 ≤ z := by
  rw [mkDay_valid _ _ _ (civil_month_bounds z).1 (civil_month_bounds z).2]
  have h := dfc_civil z 1
  have h2 := cDay_bounds z
  omega

/-- The floored date never exceeds the date itself. -/
lemma floor_le (t : Int) (g : Granularity) : floorToGranularity t g ≤ t := by
  have hd := dayNumber_le t
  have hm := civil_month_bounds (dayNumber t)
  have h1 := mkDay_first_le (dayNumber t)
  have hpos := le_of_lt msPerDay_pos
  cases g with
  | day => rw [floor_day_eq]; exact hd
  | month =>
      rw [floor_month_eq]
      exact le_trans (mul_le_mul_of_nonneg_right h1 hpos) hd
  | quarter =>
      rw [floor_quarter_eq]
      have hq := mkDay_start_mono (civilFromDays (dayNumber t)).year
        (3 * ((civilFromDays (dayNumber t)).month / 3))
        (civilFromDays (dayNumber t)).month (by omega)
      exact le_trans
        (mul_le_mul_of_nonneg_right (le_trans hq h1) hpos) hd
  | year =>
      rw [floor_year_eq]
      have hq := mkDay_start_mono (civilFromDays (dayNumber t)).year 0
        (civilFromDays (dayNumber t)).month (by omega)
      exact le_trans
        (mul_le_mul_of_nonneg_right (le_trans hq h1) hpos) hd

/-- The date never exceeds its ceiling. -/
lemma le_ceil (t : Int) (g : Granularity) : t ≤ ceilToGranularity t g := by
  unfold ceilToGranularity
  dsimp only
  split_ifs with hfix
  · exact le_refl t
  · have hd := lt_dayNumber_succ t
    have hm := civil_month_bounds (dayNumber t)
    have hnext := lt_next_month (dayNumber t)
    have hpos := le_of_lt msPerDay_pos
    cases g with
    | day =>
        show t ≤ mkDate (civilOf t).year (civilOf t).month ((civilOf t).day + 1)
        unfold mkDate civilOf
        rw [mkDay_valid _ _ _ (civil_month_bounds _).1 (civil_month_bounds _).2,
            civil_day_eq]
        have h := dfc_civil (dayNumber t) (cDay (dayNumber t) + 1)
        have hc : daysFromCivilValid (civilFromDays (dayNumber t)).year
            (civilFromDays (dayNumber t)).month (cDay (dayNumber t) + 1)
            = dayNumber t + 1 := by omega
        rw [hc]
        exact le_of_lt hd
    | month =>
        show t ≤ mkDate (civilOf (floorToGranularity t .month)).year
          ((civilOf (floorToGranularity t .month)).month + 1) 1
        rw [show floorToGranularity t .month
              = mkDate (civilFromDays (dayNumber t)).year
                  (civilFromDays (dayNumber t)).month 1 from rfl,
            civilOf_mkDate _ _ hm.1 hm.2]
        unfold mkDate
        have hstep : dayNumber t + 1
            ≤ mkDay (civilFromDays (dayNumber t)).year
                ((civilFromDays (dayNumber t)).month + 1) 1 := by omega
        exact le_trans (le_of_lt hd)
          (mul_le_mul_of_nonneg_right hstep hpos)
    | quarter =>
        show t ≤ mkDate (civilOf (floorToGranularity t .quarter)).year
          ((civilOf (floorToGranularity t .quarter)).month + 3) 1
        rw [show floorToGranularity t .quarter
              = mkDate (civilFromDays (dayNumber t)).year
                  (3 * ((civilFromDays (dayNumber t)).month / 3)) 1 from rfl,
            civilOf_mkDate _ _ (by omega) (by omega)]
        unfold mkDate
        have hq := mkDay_start_mono (civilFromDays (dayNumber t)).year
          ((civilFromDays (dayNumber t)).month + 1)
          (3 * ((civilFromDays (dayNumber t)).month / 3) + 3) (by omega)
        have hstep : dayNumber t + 1
            ≤ mkDay (civilFromDays (dayNumber t)).year
                (3 * ((civilFromDays (dayNumber t)).month / 3) + 3) 1 := by
          omega
        exact le_trans (le_of_lt hd)
          (mul_le_mul_of_nonneg_right hstep hpos)
    | year =>
        show t ≤ mkDate ((civilOf (floorToGranularity t .year)).year + 1) 0 1
        rw [show floorToGranularity t .year
              = mkDate (civilFromDays (dayNumber t)).year 0 1 from rfl,
            civilOf_mkDate _ _ (by omega) (by omega)]
        unfold mkDate
        have hq := mkDay_start_mono (civilFromDays (dayNumber t)).year
          ((civilFromDays (dayNumber t)).month + 1) 12 (by omega)
        have hy := mkDay_next_year (civilFromDays (dayNumber t)).year
        have hstep : dayNumber t + 1
            ≤ mkDay ((civilFromDays (dayNumber t)).year + 1) 0 1 := by omega
        exact le_trans (le_of_lt hd)
          (mul_le_mul_of_nonneg_right hstep hpos)

/-! Floor is idempotent; the ceiling lands on a boundary; the ceiling of a
date off its boundary is the start of the next period after its floor. -/

lemma mkDate_next_year (y : Int) : mkDate y 12 1 = mkDate (y + 1) 0 1 := by
  unfold mkDate
  rw [mkDay_next_year]

lemma floor_month_mkDate (y m : Int) (h0 : 0 ≤ m) (h1 : m ≤ 11) :
    floorToGranularity (mkDate y m 1) .month = mkDate y m 1 := by
  rw [show floorToGranularity (mkDate y m 1) .month
        = mkDate (civilOf (mkDate y m 1)).year (civilOf (mkDate y m 1)).month 1
        from rfl,
      civilOf_mkDate y m h0 h1]

lemma floor_quarter_mkDate (y q : Int) (h0 : 0 ≤ q) (h1 : q ≤ 9)
    (h3 : q % 3 = 0) :
    floorToGranularity (mkDate y q 1) .quarter = mkDate y q 1 := by
  rw [show floorToGranularity (mkDate y q 1) .quarter
        = mkDate (civilOf (mkDate y q 1)).year
            (3 * ((civilOf (mkDate y q 1)).month / 3)) 1 from rfl,
      civilOf_mkDate y q h0 (by omega)]
  dsimp only
  rw [show 3 * (q / 3) = q by omega]

lemma floor_year_mkDate (y : Int) :
    floorToGranularity (mkDate y 0 1) .year = mkDate y 0 1 := by
  rw [show floorToGranularity (mkDate y 0 1) .year
        = mkDate (civilOf (mkDate y 0 1)).year 0 1 from rfl,
      civilOf_mkDate y 0 (by omega) (by omega)]

/-- Flooring is idempotent: the floored date lies on a boundary. -/
lemma floor_fixed (t : Int) (g : Granularity) :
    floorToGranularity (floorToGranularity t g) g = floorToGranularity t g := by
  have hm : 0 ≤ (civilOf t).month ∧ (civilOf t).month ≤ 11 :=
    civil_month_bounds (dayNumber t)
  cases g with
  | day => rw [floor_day_eq, floor_day_eq, dayNumber_mul]
  | month =>
      rw [show floorToGranularity t .month
            = mkDate (civilOf t).year (civilOf t).month 1 from rfl]
      exact floor_month_mkDate _ _ hm.1 hm.2
  | quarter =>
      rw [show floorToGranularity t .quarter
            = mkDate (civilOf t).year (3 * ((civilOf t).month / 3)) 1 from rfl]
      exact floor_quarter_mkDate _ _ (by omega) (by omega) (by omega)
  | year =>
      rw [show floorToGranularity t .year
            = mkDate (civilOf t).year 0 1 from rfl]
      exact floor_year_mkDate _

/-- The ceiling also lies on a boundary of its granularity. -/
lemma ceil_fixed (t : Int) (g : Granularity) :
    floorToGranularity (ceilToGranularity t g) g = ceilToGranularity t g := by
  have hm : 0 ≤ (civilOf t).month ∧ (civilOf t).month ≤ 11 :=
    civil_month_bounds (dayNumber t)
  cases g with
  | day =>
      unfold ceilToGranularity
      dsimp only
      split_ifs with hfix
      · exact hfix
      · have hval : mkDate (civilOf t).year (civilOf t).month
            ((civilOf t).day + 1) = (dayNumber t + 1) * msPerDay := by
          unfold mkDate civilOf
          rw [mkDay_valid _ _ _ (civil_month_bounds _).1
                (civil_month_bounds _).2, civil_day_eq]
          have h := dfc_civil (dayNumber t) (cDay (dayNumber t) + 1)
          rw [show daysFromCivilValid (civilFromDays (dayNumber t)).year
              (civilFromDays (dayNumber t)).month (cDay (dayNumber t) + 1)
              = dayNumber t + 1 by omega]
        rw [hval, floor_day_eq, dayNumber_mul]
  | month =>
      unfold ceilToGranularity
      dsimp only
      split_ifs with hfix
      · exact hfix
      · rw [show floorToGranularity t .month
              = mkDate (civilOf t).year (civilOf t).month 1 from rfl,
            civilOf_mkDate _ _ hm.1 hm.2]
        dsimp only
        rcases le_or_lt (civilOf t).month 10 with hq | hq
        · exact floor_month_mkDate _ _ (by omega) (by omega)
        · rw [show (civilOf t).month = 11 by omega,
              show (11 : Int) + 1 = 12 by norm_num, mkDate_next_year]
          exact floor_month_mkDate _ _ (by omega) (by omega)
  | quarter =>
      unfold ceilToGranularity
      dsimp only
      split_ifs with hfix
      · exact hfix
      · rw [show floorToGranularity t .quarter
              = mkDate (civilOf t).year (3 * ((civilOf t).month / 3)) 1
              from rfl,
            civilOf_mkDate _ _ (by omega) (by omega)]
        dsimp only
        rcases le_or_lt ((civilOf t).month / 3) 2 with hq | hq
        · exact floor_quarter_mkDate _ _ (by omega) (by omega) (by omega)
        · rw [show 3 * ((civilOf t).month / 3) = 9 by omega,
              show (9 : Int) + 3 = 12 by norm_num, mkDate_next_year]
          exact floor_quarter_mkDate _ _ (by omega) (by omega) (by omega)
  | year =>
      unfold ceilToGranularity
      dsimp only
      split_ifs with hfix
      · exact hfix
      · rw [show floorToGranularity t .year
              = mkDate (civilOf t).year 0 1 from rfl,
            civilOf_mkDate _ _ (by omega) (by omega)]
        dsimp only
        exact floor_year_mkDate _

/-- Off a boundary, the ceiling is the start of the period after the floor
(the same step the stripe grid takes). -/
lemma ceil_next (t : Int) (g : Granularity)
    (h : floorToGranularity t g ≠ t) :
    ceilToGranularity t g = nextPeriodStart (floorToGranularity t g) g := by
  unfold ceilToGranularity nextPeriodStart
  dsimp only
  rw [if_neg h]
  cases g with
  | day =>
      rw [floor_day_eq, civilOf_mul]
      rfl
  | month => rfl
  | quarter => rfl
  | year => rfl

/-! The clamp helper and the normalization pipelines. -/

lemma clampDate_mem (minT maxT d : Int) (h : minT ≤ maxT) :
    minT ≤ clampDate d minT maxT ∧ clampDate d minT maxT ≤ maxT := by
  unfold clampDate; split_ifs <;> omega

lemma clampDate_mono (minT maxT a b : Int) (h : minT ≤ maxT) (hab : a ≤ b) :
    clampDate a minT maxT ≤ clampDate b minT maxT := by
  unfold clampDate; split_ifs <;> omega

lemma clampDate_id (minT maxT d : Int) (h1 : minT ≤ d) (h2 : d ≤ maxT) :
    clampDate d minT maxT = d := by
  unfold clampDate; split_ifs <;> omega

lemma clampDate_eq_or (minT maxT d : Int) :
    clampDate d minT maxT = d ∨ clampDate d minT maxT = minT ∨
      clampDate d minT maxT = maxT := by
  unfold clampDate; split_ifs <;> simp

/-- The endpoints the snap stage produces are ordered: flooring one end of
an ordered pair and ceiling the other, then clamping, keeps the order. -/
lemma snap_clamp_ordered (minT maxT a b : Int) (g : Granularity)
    (h : minT ≤ maxT) (hab : a ≤ b) :
    clampDate (floorToGranularity a g) minT maxT
      ≤ clampDate (ceilToGranularity b g) minT maxT :=
  clampDate_mono minT maxT _ _ h
    (le_trans (floor_le a g) (le_trans hab (le_ceil b g)))

/-- `normalizedRange` output is clamped and ordered. -/
lemma normalizedRange_bounds (minT maxT : Int) (g : Granularity) (snap : Bool)
    (r : DateRange) (h : minT ≤ maxT) :
    minT ≤ (normalizedRange minT maxT g snap r).start ∧
    (normalizedRange minT maxT g snap r).start
      ≤ (normalizedRange minT maxT g snap r).«end» ∧
    (normalizedRange minT maxT g snap r).«end» ≤ maxT := by
  unfold normalizedRange
  dsimp only
  split_ifs with h1 h2 h3 <;> dsimp only
  · exact ⟨(clampDate_mem _ _ _ h).1,
      snap_clamp_ordered _ _ _ _ g h (le_of_lt h2),
      (clampDate_mem _ _ _ h).2⟩
  · exact ⟨(clampDate_mem _ _ _ h).1,
      snap_clamp_ordered _ _ _ _ g h (le_of_not_lt h2),
      (clampDate_mem _ _ _ h).2⟩
  · exact ⟨(clampDate_mem _ _ _ h).1, le_of_lt h3,
      (clampDate_mem _ _ _ h).2⟩
  · exact ⟨(clampDate_mem _ _ _ h).1, le_of_not_lt h3,
      (clampDate_mem _ _ _ h).2⟩

/-- `commitDrag` output is clamped and ordered, whatever it is fed. -/
lemma commitDrag_bounds (minT maxT : Int) (g : Granularity) (snap : Bool)
    (a b : Int) (h : minT ≤ maxT) :
    minT ≤ (commitDrag minT maxT g snap a b).start ∧
    (commitDrag minT maxT g snap a b).start
      ≤ (commitDrag minT maxT g snap a b).«end» ∧
    (commitDrag minT maxT g snap a b).«end» ≤ maxT := by
  unfold commitDrag
  dsimp only
  split_ifs <;> dsimp only <;>
    refine ⟨(clampDate_mem _ _ _ h).1, ?_, (clampDate_mem _ _ _ h).2⟩ <;>
    first
      | exact le_of_lt (by assumption)
      | exact le_of_not_lt (by assumption)

/-! Comparison of the two code paths with the pipeline the specification
describes. -/

/-- The controlled-value normalization follows the specified steps exactly:
the re-swap after re-clamping never fires, because flooring the smaller and
ceiling the larger endpoint preserves their order through the monotone
clamp. -/
lemma normalizedRange_eq_spec (minT maxT : Int) (g : Granularity)
    (snap : Bool) (r : DateRange) (h : minT ≤ maxT) :
    normalizedRange minT maxT g snap r = specNormalize minT maxT g snap r := by
  unfold normalizedRange specNormalize
  dsimp only
  split_ifs with h1 h2 h3 h4 h5
  · exfalso
    dsimp only at h3
    have := snap_clamp_ordered minT maxT (clampDate r.«end» minT maxT)
      (clampDate r.start minT maxT) g h (le_of_lt h2)
    omega
  · rfl
  · exfalso
    dsimp only at h4
    have := snap_clamp_ordered minT maxT (clampDate r.start minT maxT)
      (clampDate r.«end» minT maxT) g h (le_of_not_lt h2)
    omega
  · rfl
  · rfl
  · rfl

/-- For raw endpoints already inside the bounds, the drag-commit path
agrees with the specified pipeline (the initial clamps are identities). -/
lemma commitDrag_eq_spec_inBounds (minT maxT : Int) (g : Granularity)
    (snap : Bool) (a b : Int) (h1 : minT ≤ a) (h2 : a ≤ maxT)
    (h3 : minT ≤ b) (h4 : b ≤ maxT) :
    commitDrag minT maxT g snap a b
      = specNormalize minT maxT g snap ⟨a, b⟩ := by
  unfold commitDrag specNormalize
  dsimp only
  rw [clampDate_id minT maxT a h1 h2, clampDate_id minT maxT b h3 h4]
  have ida := clampDate_id minT maxT a h1 h2
  have idb := clampDate_id minT maxT b h3 h4
  split_ifs <;> dsimp only at * <;>
    first
      | rfl
      | (exfalso; omega)
      | (simp only [ida, idb])

/-! Snapped endpoints land on boundaries unless clamping moved them. -/

lemma clamp_floor_boundary (minT maxT x : Int) (g : Granularity) :
    clampDate (floorToGranularity x g) minT maxT = minT ∨
    clampDate (floorToGranularity x g) minT maxT = maxT ∨
    floorToGranularity (clampDate (floorToGranularity x g) minT maxT) g
      = clampDate (floorToGranularity x g) minT maxT := by
  rcases clampDate_eq_or minT maxT (floorToGranularity x g) with h | h | h
  · right; right; rw [h]; exact floor_fixed x g
  · left; exact h
  · right; left; exact h

lemma clamp_ceil_boundary (minT maxT x : Int) (g : Granularity) :
    clampDate (ceilToGranularity x g) minT maxT = minT ∨
    clampDate (ceilToGranularity x g) minT maxT = maxT ∨
    floorToGranularity (clampDate (ceilToGranularity x g) minT maxT) g
      = clampDate (ceilToGranularity x g) minT maxT := by
  rcases clampDate_eq_or minT maxT (ceilToGranularity x g) with h | h | h
  · right; right; rw [h]; exact ceil_fixed x g
  · left; exact h
  · right; left; exact h

/-- Both endpoints of the snapped controlled-value normalization are
either a bound or on a granularity boundary. -/
lemma normalizedRange_boundary (minT maxT : Int) (g : Granularity)
    (r : DateRange) :
    ((normalizedRange minT maxT g true r).start = minT ∨
     (normalizedRange minT maxT g true r).start = maxT ∨
     floorToGranularity (normalizedRange minT maxT g true r).start g
       = (normalizedRange minT maxT g true r).start) ∧
    ((normalizedRange minT maxT g true r).«end» = minT ∨
     (normalizedRange minT maxT g true r).«end» = maxT ∨
     floorToGranularity (normalizedRange minT maxT g true r).«end» g
       = (normalizedRange minT maxT g true r).«end») := by
  unfold normalizedRange
  dsimp only
  split_ifs <;> dsimp only <;>
    first
      | exact ⟨clamp_floor_boundary _ _ _ _, clamp_ceil_boundary _ _ _ _⟩
      | exact absurd rfl (by assumption : ¬(true = true))

/-- Both endpoints of a snapped drag commit are either a bound or on a
granularity boundary. -/
lemma commitDrag_boundary (minT maxT : Int) (g : Granularity) (a b : Int) :
    ((commitDrag minT maxT g true a b).start = minT ∨
     (commitDrag minT maxT g true a b).start = maxT ∨
     floorToGranularity (commitDrag minT maxT g true a b).start g
       = (commitDrag minT maxT g true a b).start) ∧
    ((commitDrag minT maxT g true a b).«end» = minT ∨
     (commitDrag minT maxT g true a b).«end» = maxT ∨
     floorToGranularity (commitDrag minT maxT g true a b).«end» g
       = (commitDrag minT maxT g true a b).«end») := by
  unfold commitDrag
  dsimp only
  split_ifs <;> dsimp only <;>
    first
      | exact ⟨clamp_floor_boundary _ _ _ _, clamp_ceil_boundary _ _ _ _⟩
      | exact ⟨clamp_ceil_boundary _ _ _ _, clamp_floor_boundary _ _ _ _⟩
      | exact absurd rfl (by assumption : ¬(true = true))

/-! The band drag: shifting the window keeps it inside the bounds and, for
bounds on or after the epoch, truncation preserves the span exactly. -/

lemma jsTrunc_intCast (n : Int) : jsTrunc (n : ℚ) = n := by
  unfold jsTrunc
  split_ifs with h
  · rw [Int.ceil_intCast]
  · rw [Int.floor_intCast]

lemma jsTrunc_nonneg (q : ℚ) (h : 0 ≤ q) : jsTrunc q = ⌊q⌋ := by
  unfold jsTrunc
  rw [if_neg (not_lt.mpr h)]

lemma bandProposal_spec (minT maxT span center : Int) (h0 : 0 ≤ span)
    (hfit : span ≤ maxT - minT) (hmin : 0 ≤ minT) :
    minT ≤ (bandProposal minT maxT span center).1 ∧
    (bandProposal minT maxT span center).1
      ≤ (bandProposal minT maxT span center).2 ∧
    (bandProposal minT maxT span center).2 ≤ maxT ∧
    (bandProposal minT maxT span center).2
      - (bandProposal minT maxT span center).1 = span := by
  have hq0 : (0 : ℚ) ≤ (span : ℚ) := by exact_mod_cast h0
  have hqfit : (span : ℚ) ≤ (maxT : ℚ) - (minT : ℚ) := by exact_mod_cast hfit
  have hqmin : (0 : ℚ) ≤ (minT : ℚ) := by exact_mod_cast hmin
  unfold bandProposal
  dsimp only
  split_ifs with h1 h2 h2 <;> dsimp only
  · -- window shifted right to min, then claimed to cross max: impossible
    exfalso
    dsimp only at h2
    have : (center : ℚ) + (span : ℚ) / 2
        + ((minT : ℚ) - ((center : ℚ) - (span : ℚ) / 2))
        = (minT : ℚ) + (span : ℚ) := by ring
    rw [this] at h2
    linarith
  · -- window shifted right to min
    have hval : (center : ℚ) + (span : ℚ) / 2
        + ((minT : ℚ) - ((center : ℚ) - (span : ℚ) / 2))
        = ((minT + span : Int) : ℚ) := by push_cast; ring
    rw [hval, jsTrunc_intCast, jsTrunc_intCast]
    omega
  · -- window shifted left to max
    have hval : (center : ℚ) - (span : ℚ) / 2
        - ((center : ℚ) + (span : ℚ) / 2 - (maxT : ℚ))
        = ((maxT - span : Int) : ℚ) := by push_cast; ring
    rw [hval, jsTrunc_intCast, jsTrunc_intCast]
    omega
  · -- window already inside the bounds
    have hs0 : (0 : ℚ) ≤ (center : ℚ) - (span : ℚ) / 2 := by
      have := not_lt.mp h1
      linarith
    have he0 : (0 : ℚ) ≤ (center : ℚ) + (span : ℚ) / 2 := by linarith
    rw [jsTrunc_nonneg _ hs0, jsTrunc_nonneg _ he0]
    have hsplit : (center : ℚ) + (span : ℚ) / 2
        = ((center : ℚ) - (span : ℚ) / 2) + (span : Int) := by ring
    rw [hsplit, Int.floor_add_int]
    have hlow : minT ≤ ⌊(center : ℚ) - (span : ℚ) / 2⌋ := by
      rw [Int.le_floor]
      exact not_lt.mp h1
    have hup : ⌊(center : ℚ) - (span : ℚ) / 2⌋ + span ≤ maxT := by
      have hfl : (⌊(center : ℚ) - (span : ℚ) / 2⌋ : ℚ)
          ≤ (center : ℚ) - (span : ℚ) / 2 := Int.floor_le _
      have hle : ((⌊(center : ℚ) - (span : ℚ) / 2⌋ + span : Int) : ℚ)
          ≤ (maxT : ℚ) := by
        push_cast
        have := not_lt.mp h2
        linarith
      exact_mod_cast hle
    refine ⟨hlow, by omega, by omega, by omega⟩

/-- With snapping off, `commitDrag` applied to an ordered in-bounds pair is
the identity. -/
lemma commitDrag_nosnap_id (minT maxT : Int) (g : Granularity) (a b : Int)
    (hab : a ≤ b) (h1 : minT ≤ a) (h2 : b ≤ maxT) :
    commitDrag minT maxT g false a b = ⟨a, b⟩ := by
  have ida := clampDate_id minT maxT a h1 (le_trans hab h2)
  have idb := clampDate_id minT maxT b (le_trans h1 hab) h2
  unfold commitDrag
  dsimp only
  split_ifs <;> dsimp only at * <;>
    first
      | (exfalso; omega)
      | (simp only [ida, idb])

/-- The band-drag branch with snapping off commits a range of exactly the
current span whenever the span fits and the bounds are on or after the
epoch. -/
lemma frameCommit_band_span (minT maxT : Int) (g : Granularity)
    (cur : DateRange) (dateAt : Int) (hord : cur.start ≤ cur.«end»)
    (hfit : cur.«end» - cur.start ≤ maxT - minT) (hmin : 0 ≤ minT) :
    (frameCommit minT maxT g false cur .range dateAt).«end»
      - (frameCommit minT maxT g false cur .range dateAt).start
      = cur.«end» - cur.start := by
  have hb := bandProposal_spec minT maxT (cur.«end» - cur.start) dateAt
    (by omega) hfit hmin
  unfold frameCommit
  dsimp only
  rw [commitDrag_nosnap_id minT maxT g _ _ hb.2.1 hb.1 hb.2.2.1]
  dsimp only
  omega

/-! The coordinate mapper: the exact-arithmetic round trip. -/

lemma total_pos (minT maxT : Int) : 0 < total minT maxT :=
  lt_of_lt_of_le Int.one_pos (le_max_left 1 (maxT - minT))

lemma fromPct_toPct (minT maxT d : Int) :
    fromPct minT maxT (toPct minT maxT d) = d := by
  have hT : ((total minT maxT : Int) : ℚ) ≠ 0 := by
    have h := total_pos minT maxT
    exact_mod_cast ne_of_gt h
  unfold fromPct toPct
  have hval : (minT : ℚ) + ((100 * (d - minT) : Int) : ℚ)
      / ((total minT maxT : Int) : ℚ) / 100 * ((total minT maxT : Int) : ℚ)
      = ((d : Int) : ℚ) := by
    push_cast
    field_simp
    ring
  rw [hval, jsTrunc_intCast]

/-- A band proposal whose window already fits between the bounds, for an
even span: no boundary shift fires and both truncations are exact. -/
lemma bandProposal_no_shift (minT maxT span center : Int)
    (heven : 2 * (span / 2) = span)
    (hs : minT ≤ center - span / 2) (he : center + span / 2 ≤ maxT) :
    bandProposal minT maxT span center
      = (center - span / 2, center + span / 2) := by
  have hk : (span : ℚ) / 2 = ((span / 2 : Int) : ℚ) := by
    have h2 : ((2 * (span / 2) : Int) : ℚ) = ((span : Int) : ℚ) := by
      exact_mod_cast congrArg (fun n : Int => (n : ℚ)) heven
    push_cast at h2
    linarith
  have hsc : (center : ℚ) - (span : ℚ) / 2
      = ((center - span / 2 : Int) : ℚ) := by
    rw [hk]; push_cast; ring
  have hec : (center : ℚ) + (span : ℚ) / 2
      = ((center + span / 2 : Int) : ℚ) := by
    rw [hk]; push_cast; ring
  unfold bandProposal
  dsimp only
  rw [hsc, hec]
  rw [if_neg (by exact_mod_cast not_lt.mpr hs :
    ¬ ((center - span / 2 : Int) : ℚ) < (minT : ℚ))]
  dsimp only
  rw [if_neg (by exact_mod_cast not_lt.mpr he :
    ¬ (maxT : ℚ) < ((center + span / 2 : Int) : ℚ))]
  dsimp only
  rw [jsTrunc_intCast, jsTrunc_intCast]

/-- The granularity-switch commit is clamped and ordered for every ordered
selection. -/
lemma handleGranularityChange_bounds (minT maxT : Int) (cur : DateRange)
    (newG : Granularity) (h : minT ≤ maxT) (hord : cur.start ≤ cur.«end») :
    minT ≤ (handleGranularityChange minT maxT cur newG).start ∧
    (handleGranularityChange minT maxT cur newG).start
      ≤ (handleGranularityChange minT maxT cur newG).«end» ∧
    (handleGranularityChange minT maxT cur newG).«end» ≤ maxT := by
  unfold handleGranularityChange
  dsimp only
  exact ⟨(clampDate_mem _ _ _ h).1,
    snap_clamp_ordered minT maxT cur.start cur.«end» newG h hord,
    (clampDate_mem _ _ _ h).2⟩

/-! The claims. -/

/-- C1: for every raw range, bounds with `min ≤ max`, granularity and snap
flag, both normalization paths — the `normalizedRange` memo over the
controlled value and the `commitDrag` path of the drag machine — produce a
range with `min ≤ start ≤ end ≤ max`. -/
theorem C1_normalization_in_bounds (minT maxT : Int) (g : Granularity)
    (snap : Bool) (r : DateRange) (a b : Int) (h : minT ≤ maxT) :
    (minT ≤ (normalizedRange minT maxT g snap r).start ∧
     (normalizedRange minT maxT g snap r).start
       ≤ (normalizedRange minT maxT g snap r).«end» ∧
     (normalizedRange minT maxT g snap r).«end» ≤ maxT) ∧
    (minT ≤ (commitDrag minT maxT g snap a b).start ∧
     (commitDrag minT maxT g snap a b).start
       ≤ (commitDrag minT maxT g snap a b).«end» ∧
     (commitDrag minT maxT g snap a b).«end» ≤ maxT) :=
  ⟨normalizedRange_bounds minT maxT g snap r h,
   commitDrag_bounds minT maxT g snap a b h⟩

/-- Witness of C1 at concrete, deliberately malformed input: an inverted,
out-of-bounds raw range still normalizes into the bounds. -/
theorem C1_witness :
    ((0 : Int) ≤ (normalizedRange 0 86400000 .day true ⟨999999999, -5⟩).start ∧
     (normalizedRange 0 86400000 .day true ⟨999999999, -5⟩).start
       ≤ (normalizedRange 0 86400000 .day true ⟨999999999, -5⟩).«end» ∧
     (normalizedRange 0 86400000 .day true ⟨999999999, -5⟩).«end» ≤ 86400000) ∧
    ((0 : Int) ≤ (commitDrag 0 86400000 .day true 200000000 (-100)).start ∧
     (commitDrag 0 86400000 .day true 200000000 (-100)).start
       ≤ (commitDrag 0 86400000 .day true 200000000 (-100)).«end» ∧
     (commitDrag 0 86400000 .day true 200000000 (-100)).«end» ≤ 86400000) :=
  C1_normalization_in_bounds 0 86400000 .day true ⟨999999999, -5⟩
    200000000 (-100) (by decide)

/-- Counterexample to C2 as stated: the drag path snaps the raw endpoints
before clamping, so with `min = 2024-01-01`, `max = 2024-06-20`, month
granularity and snap on, the raw pair `(2024-07-05, 2024-07-10)` commits
`⟨2024-06-20, 2024-06-20⟩`, while the specified clamp-first pipeline
produces `⟨2024-06-01, 2024-06-20⟩`. -/
theorem C2_counterexample :
    commitDrag (mkDate 2024 0 1) (mkDate 2024 5 20) .month true
        (mkDate 2024 6 5) (mkDate 2024 6 10)
      ≠ specNormalize (mkDate 2024 0 1) (mkDate 2024 5 20) .month true
          ⟨mkDate 2024 6 5, mkDate 2024 6 10⟩ := by decide

/-- C2 (amended): the controlled-value path `normalizedRange` computes
exactly the result of the specified steps for every raw range, and the
drag path `commitDrag` — which snaps before clamping — agrees with the
specified steps whenever the raw endpoints already lie within the
bounds. -/
theorem C2_normalization_steps (minT maxT : Int) (g : Granularity)
    (snap : Bool) (r : DateRange) (a b : Int) (h : minT ≤ maxT)
    (h1 : minT ≤ a) (h2 : a ≤ maxT) (h3 : minT ≤ b) (h4 : b ≤ maxT) :
    normalizedRange minT maxT g snap r = specNormalize minT maxT g snap r ∧
    commitDrag minT maxT g snap a b = specNormalize minT maxT g snap ⟨a, b⟩ :=
  ⟨normalizedRange_eq_spec minT maxT g snap r h,
   commitDrag_eq_spec_inBounds minT maxT g snap a b h1 h2 h3 h4⟩

/-- Witness of the amended C2 at a concrete month-granularity input. -/
theorem C2_witness :
    normalizedRange 0 31536000000 .month true ⟨5000000000, 1000000000⟩
        = specNormalize 0 31536000000 .month true ⟨5000000000, 1000000000⟩ ∧
    commitDrag 0 31536000000 .month true 1000000000 5000000000
        = specNormalize 0 31536000000 .month true ⟨1000000000, 5000000000⟩ :=
  C2_normalization_steps 0 31536000000 .month true ⟨5000000000, 1000000000⟩
    1000000000 5000000000 (by decide) (by decide) (by decide) (by decide)
    (by decide)

/-- C3: with snap on, each endpoint of either normalization path is a fixed
point of `floorToGranularity` (it lies on a granularity boundary) unless
clamping moved it, in which case it is `min` or `max`. -/
theorem C3_snap_boundaries (minT maxT : Int) (g : Granularity)
    (r : DateRange) (a b : Int) :
    (((normalizedRange minT maxT g true r).start = minT ∨
      (normalizedRange minT maxT g true r).start = maxT ∨
      floorToGranularity (normalizedRange minT maxT g true r).start g
        = (normalizedRange minT maxT g true r).start) ∧
     ((normalizedRange minT maxT g true r).«end» = minT ∨
      (normalizedRange minT maxT g true r).«end» = maxT ∨
      floorToGranularity (normalizedRange minT maxT g true r).«end» g
        = (normalizedRange minT maxT g true r).«end»)) ∧
    (((commitDrag minT maxT g true a b).start = minT ∨
      (commitDrag minT maxT g true a b).start = maxT ∨
      floorToGranularity (commitDrag minT maxT g true a b).start g
        = (commitDrag minT maxT g true a b).start) ∧
     ((commitDrag minT maxT g true a b).«end» = minT ∨
      (commitDrag minT maxT g true a b).«end» = maxT ∨
      floorToGranularity (commitDrag minT maxT g true a b).«end» g
        = (commitDrag minT maxT g true a b).«end»)) :=
  ⟨normalizedRange_boundary minT maxT g r, commitDrag_boundary minT maxT g a b⟩

/-- Counterexample to C4 as stated: with snap on, a band drag of the
31-day window `[2024-05-01, 2024-06-01]` centred on 2024-08-15 fits the
2024 bounds, yet the commit re-snaps the shifted window to
`[2024-07-01, 2024-09-01]` — a 62-day span. -/
theorem C4_counterexample :
    mkDate 2024 5 1 - mkDate 2024 4 1
        ≤ mkDate 2024 11 31 - mkDate 2024 0 1 ∧
    (frameCommit (mkDate 2024 0 1) (mkDate 2024 11 31) .month true
          ⟨mkDate 2024 4 1, mkDate 2024 5 1⟩ .range (mkDate 2024 7 15)).«end»
        - (frameCommit (mkDate 2024 0 1) (mkDate 2024 11 31) .month true
          ⟨mkDate 2024 4 1, mkDate 2024 5 1⟩ .range (mkDate 2024 7 15)).start
      ≠ mkDate 2024 5 1 - mkDate 2024 4 1 := by
  constructor
  · decide
  · have hbp := bandProposal_no_shift (mkDate 2024 0 1) (mkDate 2024 11 31)
      (mkDate 2024 5 1 - mkDate 2024 4 1) (mkDate 2024 7 15)
      (by decide) (by decide) (by decide)
    show (commitDrag (mkDate 2024 0 1) (mkDate 2024 11 31) .month true
        (bandProposal (mkDate 2024 0 1) (mkDate 2024 11 31)
          (mkDate 2024 5 1 - mkDate 2024 4 1) (mkDate 2024 7 15)).1
        (bandProposal (mkDate 2024 0 1) (mkDate 2024 11 31)
          (mkDate 2024 5 1 - mkDate 2024 4 1) (mkDate 2024 7 15)).2).«end»
      - (commitDrag (mkDate 2024 0 1) (mkDate 2024 11 31) .month true
        (bandProposal (mkDate 2024 0 1) (mkDate 2024 11 31)
          (mkDate 2024 5 1 - mkDate 2024 4 1) (mkDate 2024 7 15)).1
        (bandProposal (mkDate 2024 0 1) (mkDate 2024 11 31)
          (mkDate 2024 5 1 - mkDate 2024 4 1) (mkDate 2024 7 15)).2).start
      ≠ mkDate 2024 5 1 - mkDate 2024 4 1
    rw [hbp]
    decide

/-- C4 (amended): with snapping off, a band-drag move whose current span
fits within bounds at or after the epoch commits a range of exactly the
current span; with snapping on the committed window is re-snapped and its
span can change. -/
theorem C4_band_span_preserved (minT maxT : Int) (g : Granularity)
    (cur : DateRange) (dateAt : Int) (hord : cur.start ≤ cur.«end»)
    (hfit : cur.«end» - cur.start ≤ maxT - minT) (hmin : 0 ≤ minT) :
    (frameCommit minT maxT g false cur .range dateAt).«end»
      - (frameCommit minT maxT g false cur .range dateAt).start
      = cur.«end» - cur.start :=
  frameCommit_band_span minT maxT g cur dateAt hord hfit hmin

/-- Witness of the amended C4: a one-day window inside two-day bounds,
dragged to centre 100000000, keeps its span. -/
theorem C4_witness :
    (frameCommit 0 172800000 .day false ⟨0, 86400000⟩
        .range 100000000).«end»
      - (frameCommit 0 172800000 .day false ⟨0, 86400000⟩
        .range 100000000).start
      = 86400000 - 0 :=
  C4_band_span_preserved 0 172800000 .day ⟨0, 86400000⟩ 100000000
    (by decide) (by decide) (by decide)

/-- C5: switching granularity re-snaps the current selection — the commit
is the clamped floor of the current start and clamped ceiling of the
current end under the new granularity — and in particular the day-to-year
switch on `{2024-03-05, 2024-03-08}` inside the 2024 bounds commits
`{2024-01-01, 2024-12-31}`. -/
theorem C5_granularity_switch (minT maxT : Int) (cur : DateRange)
    (newG : Granularity) :
    handleGranularityChange minT maxT cur newG
      = ⟨clampDate (floorToGranularity cur.start newG) minT maxT,
         clampDate (ceilToGranularity cur.«end» newG) minT maxT⟩ ∧
    handleGranularityChange (mkDate 2024 0 1) (mkDate 2024 11 31)
        ⟨mkDate 2024 2 5, mkDate 2024 2 8⟩ .year
      = ⟨mkDate 2024 0 1, mkDate 2024 11 31⟩ :=
  ⟨rfl, by decide⟩

/-- C6: the floor of a date never exceeds it and the date never exceeds
its ceiling; a date already on a boundary is returned unchanged by the
ceiling; off a boundary, the ceiling is the start of the period after the
floor. -/
theorem C6_floor_ceil_laws (t : Int) (g : Granularity) :
    floorToGranularity t g ≤ t ∧ t ≤ ceilToGranularity t g ∧
    (floorToGranularity t g = t → ceilToGranularity t g = t) ∧
    (floorToGranularity t g ≠ t →
      ceilToGranularity t g = nextPeriodStart (floorToGranularity t g) g) := by
  refine ⟨floor_le t g, le_ceil t g, ?_, ceil_next t g⟩
  intro hfix
  unfold ceilToGranularity
  dsimp only
  rw [if_pos hfix]

/-- Witness of C6 at `t = 123456789000`, month granularity. -/
theorem C6_witness :
    floorToGranularity 123456789000 .month ≤ 123456789000 ∧
    123456789000 ≤ ceilToGranularity 123456789000 .month ∧
    (floorToGranularity 123456789000 .month = 123456789000 →
      ceilToGranularity 123456789000 .month = 123456789000) ∧
    (floorToGranularity 123456789000 .month ≠ 123456789000 →
      ceilToGranularity 123456789000 .month
        = nextPeriodStart (floorToGranularity 123456789000 .month) .month) :=
  C6_floor_ceil_laws 123456789000 .month

/-- C7: the coordinate mapper round-trips exactly: mapping a date in
`[min, max]` to its track percentage and back returns the same date (the
model computes the percentage as an exact rational, so the float tolerance
of the specification is met exactly). -/
theorem C7_roundtrip (minT maxT d : Int) (h1 : minT ≤ d) (h2 : d ≤ maxT) :
    fromPct minT maxT (toPct minT maxT d) = d :=
  fromPct_toPct minT maxT d

/-- Witness of C7 inside one-day bounds. -/
theorem C7_witness : fromPct 0 86400000 (toPct 0 86400000 1234) = 1234 :=
  C7_roundtrip 0 86400000 1234 (by decide) (by decide)

/-- C8: the final move of a drag IS dropped when the pointer comes up
before the pending animation frame runs: `onPointerUp` resets the drag
target without flushing or cancelling the scheduled callback, and the
callback re-reads the cleared target and commits nothing — while the same
events with the frame before the pointer-up commit the moved range. -/
theorem C8_final_move_dropped :
    (runTrace 0 100 .day false (initState 0 100)
        [.down .start, .move 50, .up, .frame]).commits = [] ∧
    (runTrace 0 100 .day false (initState 0 100)
        [.down .start, .move 50, .frame, .up]).commits
      = [⟨50, 100⟩] := by
  constructor
  · rfl
  · rfl

/-- C9: every committed range — start-handle, end-handle or band drag via
`frameCommit`, and the granularity switch via `handleGranularityChange` —
satisfies `min ≤ start ≤ end ≤ max` for every ordered current selection,
the switch path included despite its missing re-swap. -/
theorem C9_commits_in_bounds (minT maxT : Int) (g : Granularity)
    (snap : Bool) (cur : DateRange) (w : DragTarget) (dateAt : Int)
    (newG : Granularity) (h : minT ≤ maxT) (hord : cur.start ≤ cur.«end») :
    (minT ≤ (frameCommit minT maxT g snap cur w dateAt).start ∧
     (frameCommit minT maxT g snap cur w dateAt).start
       ≤ (frameCommit minT maxT g snap cur w dateAt).«end» ∧
     (frameCommit minT maxT g snap cur w dateAt).«end» ≤ maxT) ∧
    (minT ≤ (handleGranularityChange minT maxT cur newG).start ∧
     (handleGranularityChange minT maxT cur newG).start
       ≤ (handleGranularityChange minT maxT cur newG).«end» ∧
     (handleGranularityChange minT maxT cur newG).«end» ≤ maxT) := by
  constructor
  · cases w with
    | start => exact commitDrag_bounds minT maxT g snap dateAt cur.«end» h
    | «end» => exact commitDrag_bounds minT maxT g snap cur.start dateAt h
    | range =>
        exact commitDrag_bounds minT maxT g snap
          (bandProposal minT maxT (cur.«end» - cur.start) dateAt).1
          (bandProposal minT maxT (cur.«end» - cur.start) dateAt).2 h
  · exact handleGranularityChange_bounds minT maxT cur newG h hord

/-- Witness of C9: a start-handle frame commit and a granularity switch on
one-day bounds. -/
theorem C9_witness :
    ((0 : Int) ≤ (frameCommit 0 86400000 .day false ⟨0, 86400000⟩
        .start 1000).start ∧
     (frameCommit 0 86400000 .day false ⟨0, 86400000⟩ .start 1000).start
       ≤ (frameCommit 0 86400000 .day false ⟨0, 86400000⟩
         .start 1000).«end» ∧
     (frameCommit 0 86400000 .day false ⟨0, 86400000⟩ .start 1000).«end»
       ≤ 86400000) ∧
    ((0 : Int) ≤ (handleGranularityChange 0 86400000 ⟨0, 86400000⟩
        .day).start ∧
     (handleGranularityChange 0 86400000 ⟨0, 86400000⟩ .day).start
       ≤ (handleGranularityChange 0 86400000 ⟨0, 86400000⟩ .day).«end» ∧
     (handleGranularityChange 0 86400000 ⟨0, 86400000⟩ .day).«end»
       ≤ 86400000) :=
  C9_commits_in_bounds 0 86400000 .day false ⟨0, 86400000⟩ .start 1000 .day
    (by decide) (by decide)

/-- C10: with the `value` prop omitted the component displays the
normalization of the full bounds: the default raw range is
`{start: min, end: max}` and the displayed range is its normalization. -/
theorem C10_default_full_bounds (minT maxT : Int) (g : Granularity)
    (snap : Bool) :
    rangeOrDefault none minT maxT = ⟨minT, maxT⟩ ∧
    displayedRange minT maxT g snap none
      = normalizedRange minT maxT g snap ⟨minT, maxT⟩ :=
  ⟨rfl, rfl⟩

end TimelineSlicer
